import Mathlib

/-!
Verification development for the Pentagon back-office application
(`pentagon_backend`).  We give a shallow embedding of the business-logic
core — inventory stock accounting, order creation, order status
transitions, role-gated order reads, inventory record create/update, and
user registration — and prove the specified properties about it.

Modelling conventions:
* SQL `Float` columns are modelled as `ℚ` (exact arithmetic); the code
  only multiplies and adds these values.
* SQL `Date` columns are modelled as `Nat` (a day ordinal); only the
  ordering of dates matters to the code.
* `datetime` timestamps are modelled as `Nat` and the current time is
  passed as an explicit `now` parameter wherever the code calls
  `datetime.utcnow()`.
* Database tables are modelled as lists of rows; a request handler is a
  function from the pre-state to a (response, post-state) pair, where a
  rollback leaves the post-state equal to the pre-state.
-/

/-- A row of the `product` table (`src/models/product.py`).  Fields not
read by any handler under study are omitted. -/
structure Product where
  id : Nat
  item_name : String
  trade_price : ℚ
  return_price_market : ℚ
  return_price_office : ℚ
  is_active : Bool
deriving DecidableEq, Repr

/-- A row of the `inventory` table (`src/models/inventory.py`). -/
structure InventoryRecord where
  id : Nat
  product_id : Nat
  date : Nat
  opening_pieces : Int
  lifting_pieces : Int
  lifting_price : ℚ
  return_market_pieces : Int
  return_market_price : ℚ
  return_office_pieces : Int
  return_office_price : ℚ
  ims_pieces : Int
  ims_value : ℚ
  total_stock : Int
  present_stock : Int
  closing_value : ℚ
  updated_at : Nat
deriving DecidableEq, Repr

/-- The fixed reference unit price used by `Inventory.calculate_totals`
(`140.0`, "Using average price for now"). -/
def referenceUnitPrice : ℚ := 140

/-- `Inventory.calculate_totals` (`src/models/inventory.py`, lines 96–113):
recomputes `total_stock`, `present_stock` and `closing_value` from the
movement fields. -/
def calculate_totals (r : InventoryRecord) : InventoryRecord :=
  let ts : Int := r.opening_pieces + r.return_market_pieces +
      r.return_office_pieces - r.lifting_pieces
  { r with
    total_stock := ts
    present_stock := ts
    closing_value := (ts : ℚ) * referenceUnitPrice }

/-- The record returned by
`Inventory.query.filter_by(product_id=pid).order_by(Inventory.date.desc()).first()`:
the first record for the product when ordered by descending date
(`none` when the product has no records). -/
def maxDateRecord : List InventoryRecord → Option InventoryRecord
  | [] => none
  | r :: rs =>
    match maxDateRecord rs with
    | none => some r
    | some b => if b.date > r.date then some b else some r

/-- `Inventory.get_current_stock` (`src/models/inventory.py`, lines
172–185): `present_stock` of the latest inventory record for the
product, or `0` when none exists. -/
def get_current_stock (invs : List InventoryRecord) (product_id : Nat) : Int :=
  match maxDateRecord (invs.filter (fun r => r.product_id == product_id)) with
  | some latest => latest.present_stock
  | none => 0

/-! Helper lemmas about `maxDateRecord`. -/

theorem maxDateRecord_mem {l : List InventoryRecord} {r : InventoryRecord}
    (h : maxDateRecord l = some r) : r ∈ l := by
  induction l with
  | nil => simp [maxDateRecord] at h
  | cons a as ih =>
    simp only [maxDateRecord] at h
    cases hm : maxDateRecord as with
    | none => rw [hm] at h; simp_all
    | some b =>
      rw [hm] at h
      by_cases hd : b.date > a.date
      · simp [hd] at h; exact List.mem_cons_of_mem _ (ih (h ▸ hm))
      · simp [hd] at h; simp [h]

theorem maxDateRecord_eq_none {l : List InventoryRecord}
    (h : maxDateRecord l = none) : l = [] := by
  cases l with
  | nil => rfl
  | cons a as =>
    simp only [maxDateRecord] at h
    cases hm : maxDateRecord as with
    | none => rw [hm] at h; exact absurd h (by simp)
    | some b =>
      rw [hm] at h
      by_cases hd : b.date > a.date <;> simp [hd] at h

theorem maxDateRecord_max {l : List InventoryRecord} :
    ∀ {r : InventoryRecord}, maxDateRecord l = some r →
      ∀ x ∈ l, x.date ≤ r.date := by
  induction l with
  | nil => simp
  | cons a as ih =>
    intro r h x hx
    simp only [maxDateRecord] at h
    cases hm : maxDateRecord as with
    | none =>
      rw [hm] at h
      have has : as = [] := maxDateRecord_eq_none hm
      subst has
      simp at hx h
      subst hx; subst h; exact le_refl _
    | some b =>
      rw [hm] at h
      rcases List.mem_cons.mp hx with hxa | hxas
      · subst hxa
        by_cases hd : b.date > x.date
        · simp [hd] at h; subst h; exact le_of_lt hd
        · simp [hd] at h; subst h; exact le_refl _
      · have hxb : x.date ≤ b.date := ih hm x hxas
        by_cases hd : b.date > a.date
        · simp [hd] at h; subst h; exact hxb
        · simp [hd] at h; subst h
          exact le_trans hxb (not_lt.mp hd)

theorem maxDateRecord_isSome {l : List InventoryRecord} (h : l ≠ []) :
    ∃ r, maxDateRecord l = some r := by
  cases l with
  | nil => exact absurd rfl h
  | cons a as =>
    simp only [maxDateRecord]
    cases maxDateRecord as with
    | none => exact ⟨a, rfl⟩
    | some b =>
      by_cases hd : b.date > a.date
      · exact ⟨b, by simp [hd]⟩
      · exact ⟨a, by simp [hd]⟩

/-- C1: `calculate_totals` sets
`total_stock = opening + return_market + return_office − lifting`,
`present_stock = total_stock`, and
`closing_value = present_stock × referenceUnitPrice`, for every record —
including those whose movement fields make `total_stock` negative:
no clamping to zero is performed. -/
theorem calculate_totals_spec (r : InventoryRecord) :
    (calculate_totals r).total_stock =
        r.opening_pieces + r.return_market_pieces +
        r.return_office_pieces - r.lifting_pieces ∧
    (calculate_totals r).present_stock = (calculate_totals r).total_stock ∧
    (calculate_totals r).closing_value =
        ((calculate_totals r).present_stock : ℚ) * referenceUnitPrice :=
  ⟨rfl, rfl, rfl⟩

/-- C2: `get_current_stock` returns the `present_stock` of the record
with the maximum date for the product (latest date wins, not maximum
value), and returns `0` when the product has no inventory record. -/
theorem get_current_stock_spec (invs : List InventoryRecord) (pid : Nat) :
    ((∀ r ∈ invs, r.product_id ≠ pid) → get_current_stock invs pid = 0) ∧
    (∀ r ∈ invs, r.product_id = pid →
      (∀ x ∈ invs, x.product_id = pid → x = r ∨ x.date < r.date) →
      get_current_stock invs pid = r.present_stock) := by
  constructor
  · intro hnone
    have hfilter : invs.filter (fun r => r.product_id == pid) = [] := by
      rw [List.filter_eq_nil_iff]
      intro a ha
      simpa using hnone a ha
    simp [get_current_stock, hfilter, maxDateRecord]
  · intro r hr hrpid hmax
    have hrf : r ∈ invs.filter (fun x => x.product_id == pid) :=
      List.mem_filter.mpr ⟨hr, by simpa using hrpid⟩
    obtain ⟨m, hm⟩ := maxDateRecord_isSome (List.ne_nil_of_mem hrf)
    have hmmem := maxDateRecord_mem hm
    have hmfil := List.mem_filter.mp hmmem
    have hmpid : m.product_id = pid := by simpa using hmfil.2
    have hle : r.date ≤ m.date := maxDateRecord_max hm r hrf
    have : m = r ∨ m.date < r.date := hmax m hmfil.1 hmpid
    rcases this with heq | hlt
    · subst heq; simp [get_current_stock, hm]
    · exact absurd hle (not_le.mpr hlt)

/-- Witness for C2 at concrete inputs: a product with records dated day 18
(present_stock 10) and day 20 (present_stock 15) yields 15, and a product
with no records yields 0. -/
theorem get_current_stock_spec_witness :
    get_current_stock [] 1 = 0 ∧
    get_current_stock
      [{ id := 1, product_id := 1, date := 18, opening_pieces := 0,
         lifting_pieces := 0, lifting_price := 0, return_market_pieces := 0,
         return_market_price := 0, return_office_pieces := 0,
         return_office_price := 0, ims_pieces := 0, ims_value := 0,
         total_stock := 10, present_stock := 10, closing_value := 0,
         updated_at := 0 },
       { id := 2, product_id := 1, date := 20, opening_pieces := 0,
         lifting_pieces := 0, lifting_price := 0, return_market_pieces := 0,
         return_market_price := 0, return_office_pieces := 0,
         return_office_price := 0, ims_pieces := 0, ims_value := 0,
         total_stock := 15, present_stock := 15, closing_value := 0,
         updated_at := 0 }] 1 = 15 := by
  constructor
  · exact (get_current_stock_spec [] 1).1 (by simp)
  · exact (get_current_stock_spec _ 1).2
      { id := 2, product_id := 1, date := 20, opening_pieces := 0,
        lifting_pieces := 0, lifting_price := 0, return_market_pieces := 0,
        return_market_price := 0, return_office_pieces := 0,
        return_office_price := 0, ims_pieces := 0, ims_value := 0,
        total_stock := 15, present_stock := 15, closing_value := 0,
        updated_at := 0 }
      (by simp) rfl (by decide)

/-! ## Orders (`src/models/order.py`, `src/routes/order.py`) -/

/-- A row of the `order` table (`src/models/order.py`).  `created_at`
coincides with `order_date` at creation and is omitted. -/
structure OrderRow where
  id : Nat
  sales_person_id : Nat
  customer_name : String
  customer_phone : String
  customer_address : String
  delivery_area : String
  status : String
  total_value : ℚ
  order_date : Nat
  delivery_date : Option Nat
  notes : String
  updated_at : Nat
deriving DecidableEq, Repr

/-- A row of the `order_item` table (`src/models/order.py`). -/
structure OrderItemRow where
  order_id : Nat
  product_id : Nat
  quantity : Int
  unit_price : ℚ
  total_price : ℚ
deriving DecidableEq, Repr

/-- `OrderItem.calculate_total_price` (`src/models/order.py`, lines
123–128): `total_price = quantity * unit_price`. -/
def calculate_total_price (oi : OrderItemRow) : OrderItemRow :=
  { oi with total_price := (oi.quantity : ℚ) * oi.unit_price }

/-- One entry of the `items` list in a `POST /orders` body. -/
structure OrderLine where
  product_id : Nat
  quantity : Int
deriving DecidableEq, Repr

/-- The body of a `POST /orders` request (customer fields plus items);
optional fields default to the empty string as in `data.get(k, '')`. -/
structure OrderRequest where
  customer_name : String
  customer_phone : String
  customer_address : String
  delivery_area : String
  notes : String
  items : List OrderLine
deriving DecidableEq, Repr

/-- The database state touched by the order and inventory handlers. -/
structure St where
  products : List Product
  inventories : List InventoryRecord
  orders : List OrderRow
  order_items : List OrderItemRow
deriving DecidableEq, Repr

/-- `Product.query.get(pid)`: the product row with the given primary
key. -/
def findProduct (ps : List Product) (pid : Nat) : Option Product :=
  ps.find? (fun p => p.id == pid)

/-- The item-processing loop of `create_order` (`src/routes/order.py`,
lines 226–264): for each line, look up the product (reject when missing
or inactive), check `get_current_stock` against the requested quantity
(reject when short), then build an `OrderItem` with `unit_price`
snapshotted from `trade_price` and accumulate the total value.  Any
rejection aborts the whole loop. -/
def processItems (ps : List Product) (invs : List InventoryRecord)
    (oid : Nat) : List OrderLine → Except String (List OrderItemRow × ℚ)
  | [] => .ok ([], 0)
  | l :: ls =>
    match findProduct ps l.product_id with
    | none => .error "Product not found or inactive"
    | some p =>
      if p.is_active = false then .error "Product not found or inactive"
      else if get_current_stock invs l.product_id < l.quantity then
        .error "Insufficient stock"
      else
        let item := calculate_total_price
          { order_id := oid, product_id := p.id, quantity := l.quantity,
            unit_price := p.trade_price, total_price := 0 }
        match processItems ps invs oid ls with
        | .error e => .error e
        | .ok (rest, tv) => .ok (item :: rest, item.total_price + tv)

/-- `create_order` (`src/routes/order.py`, lines 156–287): validate the
items, insert the order header and all line items, and set the order's
`total_value`; any line failure rolls the transaction back, leaving the
state unchanged. -/
def create_order (st : St) (uid : Nat) (req : OrderRequest) (now : Nat) :
    Except String OrderRow × St :=
  if req.items = [] then
    (.error "Order must contain at least one item", st)
  else
    let oid := st.orders.length + 1
    match processItems st.products st.inventories oid req.items with
    | .error e => (.error e, st)
    | .ok (ois, tv) =>
      let order : OrderRow :=
        { id := oid, sales_person_id := uid,
          customer_name := req.customer_name,
          customer_phone := req.customer_phone,
          customer_address := req.customer_address,
          delivery_area := req.delivery_area, status := "pending",
          total_value := tv, order_date := now, delivery_date := none,
          notes := req.notes, updated_at := now }
      (.ok order,
       { st with orders := st.orders ++ [order],
                 order_items := st.order_items ++ ois })

/-- The three per-line rejection conditions of the `create_order` loop:
unknown product, inactive product, or requested quantity above the
current stock. -/
def lineRejected (ps : List Product) (invs : List InventoryRecord)
    (l : OrderLine) : Prop :=
  findProduct ps l.product_id = none ∨
  (∃ p, findProduct ps l.product_id = some p ∧ p.is_active = false) ∨
  get_current_stock invs l.product_id < l.quantity

/-- The per-line acceptance condition of the `create_order` loop: the
product exists, is active, and has current stock at least the requested
quantity (no positivity requirement on the quantity). -/
def lineAccepted (ps : List Product) (invs : List InventoryRecord)
    (l : OrderLine) : Prop :=
  ∃ p, findProduct ps l.product_id = some p ∧ p.is_active = true ∧
    l.quantity ≤ get_current_stock invs l.product_id

theorem processItems_error_of_bad {ps : List Product}
    {invs : List InventoryRecord} (oid : Nat) {items : List OrderLine}
    (hbad : ∃ l ∈ items, lineRejected ps invs l) :
    ∃ e, processItems ps invs oid items = .error e := by
  induction items with
  | nil => obtain ⟨l, hl, _⟩ := hbad; simp at hl
  | cons a as ih =>
    obtain ⟨l, hl, hrej⟩ := hbad
    simp only [processItems]
    cases hp : findProduct ps a.product_id with
    | none => exact ⟨_, rfl⟩
    | some p =>
      by_cases hact : p.is_active = false
      · exact ⟨"Product not found or inactive", by simp [hact]⟩
      · by_cases hstock : get_current_stock invs a.product_id < a.quantity
        · exact ⟨"Insufficient stock", by simp [hact, hstock]⟩
        · have hlas : l ∈ as := by
            rcases List.mem_cons.mp hl with hla | hlas
            · subst hla
              rcases hrej with h1 | ⟨q, hq, hq2⟩ | h3
              · rw [hp] at h1; exact absurd h1 (by simp)
              · rw [hp] at hq
                exact absurd (Option.some_inj.mp hq ▸ hq2) hact
              · exact absurd h3 hstock
            · exact hlas
          obtain ⟨e, he⟩ := ih ⟨l, hlas, hrej⟩
          exact ⟨e, by simp [hact, hstock, he]⟩

theorem findProduct_id {ps : List Product} {pid : Nat} {p : Product}
    (h : findProduct ps pid = some p) : p.id = pid := by
  have := List.find?_some h
  simpa using this

theorem processItems_ok_spec {ps : List Product}
    {invs : List InventoryRecord} {oid : Nat} :
    ∀ {items : List OrderLine} {ois : List OrderItemRow} {tv : ℚ},
      processItems ps invs oid items = .ok (ois, tv) →
      ois.map (fun i => i.quantity) = items.map (fun l => l.quantity) ∧
      (∀ oi ∈ ois, oi.order_id = oid ∧
        ∃ p, findProduct ps oi.product_id = some p ∧ p.is_active = true ∧
          oi.unit_price = p.trade_price ∧
          oi.total_price = (oi.quantity : ℚ) * oi.unit_price) ∧
      tv = (ois.map (fun i => i.total_price)).sum := by
  intro items
  induction items with
  | nil =>
    intro ois tv h
    simp only [processItems, Except.ok.injEq, Prod.mk.injEq] at h
    obtain ⟨h1, h2⟩ := h
    subst h1; subst h2
    simp
  | cons a as ih =>
    intro ois tv h
    simp only [processItems] at h
    cases hp : findProduct ps a.product_id with
    | none => rw [hp] at h; exact absurd h (by simp)
    | some p =>
      rw [hp] at h
      by_cases hact : p.is_active = false
      · simp [hact] at h
      · simp only [hact, if_false] at h
        by_cases hstock : get_current_stock invs a.product_id < a.quantity
        · simp [hstock] at h
        · simp only [hstock, if_false] at h
          cases hrec : processItems ps invs oid as with
          | error e => rw [hrec] at h; exact absurd h (by simp)
          | ok pair =>
            obtain ⟨rest, tv0⟩ := pair
            rw [hrec] at h
            simp only [Except.ok.injEq, Prod.mk.injEq] at h
            obtain ⟨h1, h2⟩ := h
            obtain ⟨hq, hmem, hsum⟩ := ih hrec
            refine ⟨by simp [hq, calculate_total_price], ?_, ?_⟩
            · intro oi hoi
              rcases List.mem_cons.mp hoi with hoia | hoir
              · subst hoia
                refine ⟨rfl, p, ?_, ?_, rfl, rfl⟩
                · have hpid : p.id = a.product_id := findProduct_id hp
                  simpa [calculate_total_price, hpid] using hp
                · simpa using hact
              · exact hmem oi hoir
            · simp [hsum, calculate_total_price]

theorem processItems_isOk {ps : List Product}
    {invs : List InventoryRecord} (oid : Nat) :
    ∀ {items : List OrderLine},
      (∀ l ∈ items, lineAccepted ps invs l) →
      ∃ ois tv, processItems ps invs oid items = .ok (ois, tv) := by
  intro items
  induction items with
  | nil => intro _; exact ⟨[], 0, rfl⟩
  | cons a as ih =>
    intro hall
    obtain ⟨p, hp, hact, hstock⟩ := hall a (List.mem_cons_self a as)
    obtain ⟨ois, tv, hrec⟩ := ih (fun l hl => hall l (List.mem_cons_of_mem a hl))
    refine ⟨calculate_total_price
        ⟨oid, p.id, a.quantity, p.trade_price, 0⟩ :: ois,
      (calculate_total_price
        ⟨oid, p.id, a.quantity, p.trade_price, 0⟩).total_price + tv, ?_⟩
    simp only [processItems, hp, hrec]
    simp [hact, not_lt.mpr hstock]

/-- C3: `create_order` rejects the whole order — error response and
unchanged database state — whenever any requested line references a
missing or inactive product, or requests more than the current stock of
its product. -/
theorem create_order_rejects_bad_line (st : St) (uid : Nat)
    (req : OrderRequest) (now : Nat)
    (hbad : ∃ l ∈ req.items, lineRejected st.products st.inventories l) :
    (∃ e, (create_order st uid req now).1 = .error e) ∧
    (create_order st uid req now).2 = st := by
  have hne : req.items ≠ [] := by
    obtain ⟨l, hl, _⟩ := hbad
    exact List.ne_nil_of_mem hl
  obtain ⟨e, he⟩ := processItems_error_of_bad
    (st.orders.length + 1) hbad
  constructor
  · exact ⟨e, by simp [create_order, hne, he]⟩
  · simp [create_order, hne, he]

/-- C4: on success, every persisted line's `unit_price` is a snapshot of
its product's `trade_price`, every line's `total_price` is
`quantity × unit_price`, and the order's `total_value` is the sum of the
line totals. -/
theorem create_order_success_pricing (st : St) (uid : Nat)
    (req : OrderRequest) (now : Nat) (o : OrderRow)
    (h : (create_order st uid req now).1 = .ok o) :
    ∃ ois, (create_order st uid req now).2.order_items =
        st.order_items ++ ois ∧
      (∀ oi ∈ ois, ∃ p, findProduct st.products oi.product_id = some p ∧
        oi.unit_price = p.trade_price ∧
        oi.total_price = (oi.quantity : ℚ) * oi.unit_price) ∧
      o.total_value = (ois.map (fun i => i.total_price)).sum := by
  by_cases hne : req.items = []
  · simp [create_order, hne] at h
  · simp only [create_order, hne, if_false] at h ⊢
    cases hrec : processItems st.products st.inventories
        (st.orders.length + 1) req.items with
    | error e => rw [hrec] at h; exact absurd h (by simp)
    | ok pair =>
      obtain ⟨ois, tv⟩ := pair
      rw [hrec] at h
      simp only [Except.ok.injEq] at h
      obtain ⟨_, hmem, hsum⟩ := processItems_ok_spec hrec
      refine ⟨ois, by simp, ?_, ?_⟩
      · intro oi hoi
        obtain ⟨_, p, hp, _, hup, htp⟩ := hmem oi hoi
        exact ⟨p, hp, hup, htp⟩
      · rw [← h]; exact hsum

/-- C6: `create_order` never modifies any inventory record — on success
and on failure alike the inventory table of the post-state is exactly
that of the pre-state, so `get_current_stock` is unchanged for every
product. -/
theorem create_order_preserves_inventory (st : St) (uid : Nat)
    (req : OrderRequest) (now : Nat) :
    (create_order st uid req now).2.inventories = st.inventories ∧
    ∀ pid, get_current_stock (create_order st uid req now).2.inventories pid =
      get_current_stock st.inventories pid := by
  have hinv : (create_order st uid req now).2.inventories = st.inventories := by
    by_cases hne : req.items = []
    · simp [create_order, hne]
    · simp only [create_order, hne, if_false]
      cases hrec : processItems st.products st.inventories
          (st.orders.length + 1) req.items with
      | error e => simp
      | ok pair => simp
  exact ⟨hinv, fun pid => by rw [hinv]⟩

/-- C10: `create_order` performs no positivity validation on quantities:
whenever every line's product is active and its quantity is at most the
current stock — including zero and negative quantities — the order is
accepted, the persisted lines carry exactly the requested quantities,
each contributes `quantity × unit_price`, and `total_value` is their
sum. -/
theorem create_order_no_positivity_check (st : St) (uid : Nat)
    (req : OrderRequest) (now : Nat)
    (hne : req.items ≠ [])
    (hall : ∀ l ∈ req.items, lineAccepted st.products st.inventories l) :
    ∃ o ois, (create_order st uid req now).1 = .ok o ∧
      (create_order st uid req now).2.order_items =
        st.order_items ++ ois ∧
      ois.map (fun i => i.quantity) = req.items.map (fun l => l.quantity) ∧
      (∀ oi ∈ ois, oi.total_price = (oi.quantity : ℚ) * oi.unit_price) ∧
      o.total_value = (ois.map (fun i => i.total_price)).sum := by
  obtain ⟨ois, tv, hrec⟩ := processItems_isOk
    (st.orders.length + 1) hall
  obtain ⟨hq, hmem, hsum⟩ := processItems_ok_spec hrec
  refine ⟨{ id := st.orders.length + 1, sales_person_id := uid,
            customer_name := req.customer_name,
            customer_phone := req.customer_phone,
            customer_address := req.customer_address,
            delivery_area := req.delivery_area, status := "pending",
            total_value := tv, order_date := now, delivery_date := none,
            notes := req.notes, updated_at := now },
    ois, ?_, ?_, hq, ?_, ?_⟩
  · simp [create_order, hne, hrec]
  · simp [create_order, hne, hrec]
  · intro oi hoi
    obtain ⟨_, p, _, _, _, htp⟩ := hmem oi hoi
    exact htp
  · exact hsum

/-! ## Users and authentication (`src/models/user.py`, `src/routes/auth.py`) -/

/-- A row of the `user` table (`src/models/user.py`). -/
structure User where
  id : Nat
  username : String
  email : String
  full_name : String
  phone : String
  role : String
  password_hash : String
deriving DecidableEq, Repr

/-- `User.is_admin`: `role == 'admin'`. -/
def is_admin (u : User) : Bool := u.role == "admin"

/-- `User.is_sales`: `role == 'sales'`. -/
def is_sales (u : User) : Bool := u.role == "sales"

/-- `User.set_password` delegates to an external password-hashing
primitive (out of scope); the hash is modelled as the password itself,
which no claim inspects. -/
def set_password (password : String) : String := password

/-- The body of a `POST /register` request.  The handler reads only
`username`, `email`, `password`, `full_name` and `phone`; a `role`
field, if supplied, is carried here but never read. -/
structure RegisterBody where
  username : String
  email : String
  password : String
  full_name : String
  phone : String
  role : Option String
deriving DecidableEq, Repr

/-- `register` (`src/routes/auth.py`, lines 150–201): validate the
required fields (blank after strip ⇒ 400), reject duplicate usernames
and emails (400), and otherwise create the account with
`role='sales'` — the requested role is never consulted. -/
def register (users : List User) (b : RegisterBody) (next_id : Nat) :
    Nat × List User :=
  if b.username.trim == "" || b.email.trim == "" ||
      b.password.trim == "" || b.full_name.trim == "" then
    (400, users)
  else if users.any (fun u => u.username == b.username.trim) then
    (400, users)
  else if users.any (fun u => u.email == b.email.trim) then
    (400, users)
  else
    (201, users ++ [{ id := next_id, username := b.username.trim,
                      email := b.email.trim, full_name := b.full_name.trim,
                      phone := b.phone.trim, role := "sales",
                      password_hash := set_password b.password }])

/-- C9: every account `register` creates has role `'sales'`, whatever
role the request body asked for: the post-state is either unchanged (a
validation failure) or extends the user table by exactly one sales-role
account. -/
theorem register_always_sales (users : List User) (b : RegisterBody)
    (next_id : Nat) :
    (register users b next_id).2 = users ∨
    ∃ u, (register users b next_id).2 = users ++ [u] ∧ u.role = "sales" := by
  unfold register
  by_cases h1 : (b.username.trim == "" || b.email.trim == "" ||
      b.password.trim == "" || b.full_name.trim == "") = true
  · left; simp [h1]
  · by_cases h2 : (users.any (fun u => u.username == b.username.trim)) = true
    · left; simp [h1, h2]
    · by_cases h3 : (users.any (fun u => u.email == b.email.trim)) = true
      · left; simp [h1, h2, h3]
      · right
        refine ⟨{ id := next_id, username := b.username.trim,
                  email := b.email.trim, full_name := b.full_name.trim,
                  phone := b.phone.trim, role := "sales",
                  password_hash := set_password b.password }, ?_, rfl⟩
        simp [h1, h2, h3]

/-- `get_order` (`src/routes/order.py`, lines 94–154): look up the
order; 404 when missing, 403 when a sales caller does not own it, 200
with the order otherwise. -/
def get_order (orders : List OrderRow) (u : User) (oid : Nat) :
    Nat × Option OrderRow :=
  match orders.find? (fun o => o.id == oid) with
  | none => (404, none)
  | some o =>
    if is_sales u && o.sales_person_id != u.id then (403, none)
    else (200, some o)

/-- C8: for a sales-role caller and an existing order, `get_order`
answers 403 with no order data when the order belongs to a different
sales person, and 200 with the order when the caller owns it. -/
theorem get_order_sales_ownership (orders : List OrderRow) (u : User)
    (oid : Nat) (o : OrderRow)
    (hrole : u.role = "sales")
    (hfind : orders.find? (fun x => x.id == oid) = some o) :
    (o.sales_person_id ≠ u.id → get_order orders u oid = (403, none)) ∧
    (o.sales_person_id = u.id → get_order orders u oid = (200, some o)) := by
  constructor
  · intro hne
    simp [get_order, hfind, is_sales, hrole, hne]
  · intro heq
    simp [get_order, hfind, is_sales, hrole, heq]

/-- The status-assignment step of `update_order_status`
(`src/routes/order.py`, lines 336–346): set the new status, refresh
`updated_at`, and stamp `delivery_date` with the current time exactly
when the status changes into `delivered` from a non-`delivered`
status. -/
def apply_status_change (o : OrderRow) (new_status : String) (now : Nat) :
    OrderRow :=
  let o1 := { o with status := new_status, updated_at := now }
  if new_status == "delivered" && o.status != "delivered" then
    { o1 with delivery_date := some now }
  else o1

/-- The five statuses accepted by `update_order_status`. -/
def valid_statuses : List String :=
  ["pending", "processing", "delivered", "cancelled", "due"]

/-- `update_order_status` (`src/routes/order.py`, lines 289–359): find
the order (404), enforce sales ownership (403), validate the status
(400), then apply the status change and save. -/
def update_order_status (orders : List OrderRow) (u : User) (oid : Nat)
    (new_status : String) (now : Nat) : Nat × List OrderRow :=
  match orders.find? (fun o => o.id == oid) with
  | none => (404, orders)
  | some o =>
    if is_sales u && o.sales_person_id != u.id then (403, orders)
    else if !(valid_statuses.contains new_status) then (400, orders)
    else (200, orders.map (fun x =>
      if x.id == oid then apply_status_change o new_status now else x))

/-- C5: `apply_status_change` stamps `delivery_date` with the current
time exactly on a transition into `delivered` from a non-`delivered`
status; every other transition — including re-setting `delivered` when
already `delivered` — leaves `delivery_date` unchanged. -/
theorem apply_status_change_delivery_date (o : OrderRow) (s : String)
    (now : Nat) :
    (s = "delivered" ∧ o.status ≠ "delivered" →
      (apply_status_change o s now).delivery_date = some now) ∧
    (s ≠ "delivered" ∨ o.status = "delivered" →
      (apply_status_change o s now).delivery_date = o.delivery_date) := by
  constructor
  · rintro ⟨hs, hold⟩
    simp [apply_status_change, hs, hold]
  · rintro (hs | hold)
    · simp [apply_status_change, hs]
    · simp [apply_status_change, hold]

/-! ## Inventory routes (`src/routes/inventory.py`) -/

/-- The movement fields of a `POST /inventory` body after the
`data.get(field, 0)` defaulting. -/
structure InventoryCreateBody where
  opening_pieces : Int
  lifting_pieces : Int
  lifting_price : ℚ
  return_market_pieces : Int
  return_market_price : ℚ
  return_office_pieces : Int
  return_office_price : ℚ
  ims_pieces : Int
  ims_value : ℚ
deriving DecidableEq, Repr

/-- `create_inventory_record` (`src/routes/inventory.py`, lines
166–276): admin-only (403), product must exist (404), and at most one
record per (product, date) — a duplicate is rejected with 400; otherwise
the new record is stored with its totals calculated. -/
def create_inventory_record (ps : List Product)
    (invs : List InventoryRecord) (u : User) (pid : Nat) (d : Nat)
    (b : InventoryCreateBody) (next_id now : Nat) :
    Nat × List InventoryRecord :=
  if !(is_admin u) then (403, invs)
  else
    match findProduct ps pid with
    | none => (404, invs)
    | some _ =>
      if invs.any (fun r => r.product_id == pid && r.date == d) then
        (400, invs)
      else
        (201, invs ++ [calculate_totals
          { id := next_id, product_id := pid, date := d,
            opening_pieces := b.opening_pieces,
            lifting_pieces := b.lifting_pieces,
            lifting_price := b.lifting_price,
            return_market_pieces := b.return_market_pieces,
            return_market_price := b.return_market_price,
            return_office_pieces := b.return_office_pieces,
            return_office_price := b.return_office_price,
            ims_pieces := b.ims_pieces, ims_value := b.ims_value,
            total_stock := 0, present_stock := 0, closing_value := 0,
            updated_at := now }])

/-- The optional fields of a `PUT /inventory/:id` body: each field is
updated only when present.  Neither `product_id` nor `date` is
updatable. -/
structure InventoryUpdateBody where
  opening_pieces : Option Int
  lifting_pieces : Option Int
  lifting_price : Option ℚ
  return_market_pieces : Option Int
  return_market_price : Option ℚ
  return_office_pieces : Option Int
  return_office_price : Option ℚ
  ims_pieces : Option Int
  ims_value : Option ℚ
deriving DecidableEq, Repr

/-- The field-update block of `update_inventory_record`
(`src/routes/inventory.py`, lines 316–342): overwrite exactly the
fields present in the body. -/
def apply_inventory_update (r : InventoryRecord)
    (b : InventoryUpdateBody) : InventoryRecord :=
  { r with
    opening_pieces := b.opening_pieces.getD r.opening_pieces
    lifting_pieces := b.lifting_pieces.getD r.lifting_pieces
    lifting_price := b.lifting_price.getD r.lifting_price
    return_market_pieces := b.return_market_pieces.getD r.return_market_pieces
    return_market_price := b.return_market_price.getD r.return_market_price
    return_office_pieces := b.return_office_pieces.getD r.return_office_pieces
    return_office_price := b.return_office_price.getD r.return_office_price
    ims_pieces := b.ims_pieces.getD r.ims_pieces
    ims_value := b.ims_value.getD r.ims_value }

/-- `update_inventory_record` (`src/routes/inventory.py`, lines
278–369): admin-only (403), record must exist (404); the provided
movement fields are overwritten in place, totals recalculated and
`updated_at` refreshed — `product_id` and `date` are never touched and
no new row is created. -/
def update_inventory_record (invs : List InventoryRecord) (u : User)
    (iid : Nat) (b : InventoryUpdateBody) (now : Nat) :
    Nat × List InventoryRecord :=
  if !(is_admin u) then (403, invs)
  else
    match invs.find? (fun r => r.id == iid) with
    | none => (404, invs)
    | some _ =>
      (200, invs.map (fun r =>
        if r.id == iid then
          { calculate_totals (apply_inventory_update r b) with
            updated_at := now }
        else r))

/-- The (product_id, date) key of an inventory record. -/
def projPD (r : InventoryRecord) : Nat × Nat := (r.product_id, r.date)

/-- The store invariant: at most one inventory record per
(product_id, date) pair. -/
def uniquePerProductDate (invs : List InventoryRecord) : Prop :=
  (invs.map projPD).Nodup

theorem calculate_totals_projPD (r : InventoryRecord) :
    projPD (calculate_totals r) = projPD r := rfl

theorem apply_inventory_update_projPD (r : InventoryRecord)
    (b : InventoryUpdateBody) : projPD (apply_inventory_update r b) =
    projPD r := rfl

theorem update_inventory_record_projPD (invs : List InventoryRecord)
    (u : User) (iid : Nat) (b : InventoryUpdateBody) (now : Nat) :
    (update_inventory_record invs u iid b now).2.map projPD =
      invs.map projPD := by
  unfold update_inventory_record
  by_cases hadm : is_admin u = true
  · cases hf : invs.find? (fun r => r.id == iid) with
    | none => simp [hadm, hf]
    | some r0 =>
      simp only [hadm, hf, Bool.not_true, Bool.false_eq_true, if_false,
        List.map_map]
      apply List.map_congr_left
      intro r _
      by_cases hid : (r.id == iid) = true
      · simp [Function.comp, hid, projPD, calculate_totals,
          apply_inventory_update]
      · simp [Function.comp, hid]
  · simp [hadm]

/-- C7: the store keeps at most one inventory record per
(product_id, date): `create_inventory_record` answers 400 and leaves
the store unchanged when an admin requests a (product, date) pair that
already has a record for an existing product, and
`update_inventory_record` never changes any record's `product_id` or
`date`; consequently both handlers preserve the uniqueness
invariant. -/
theorem inventory_unique_per_product_date (ps : List Product)
    (invs : List InventoryRecord) (u : User) (pid d : Nat)
    (cb : InventoryCreateBody) (next_id now : Nat) (iid : Nat)
    (ub : InventoryUpdateBody)
    (hu : uniquePerProductDate invs) :
    ((∃ r ∈ invs, r.product_id = pid ∧ r.date = d) →
      is_admin u = true → (findProduct ps pid).isSome = true →
      create_inventory_record ps invs u pid d cb next_id now =
        (400, invs)) ∧
    uniquePerProductDate
      (create_inventory_record ps invs u pid d cb next_id now).2 ∧
    (update_inventory_record invs u iid ub now).2.map projPD =
      invs.map projPD ∧
    uniquePerProductDate (update_inventory_record invs u iid ub now).2 := by
  refine ⟨?_, ?_, update_inventory_record_projPD invs u iid ub now, ?_⟩
  · rintro ⟨r, hr, hrp, hrd⟩ hadm hps
    have hdup : invs.any (fun x => x.product_id == pid && x.date == d) = true := by
      rw [List.any_eq_true]
      exact ⟨r, hr, by simp [hrp, hrd]⟩
    obtain ⟨p, hp⟩ := Option.isSome_iff_exists.mp hps
    simp [create_inventory_record, hadm, hp, hdup]
  · unfold create_inventory_record
    by_cases hadm : is_admin u = true
    · simp only [hadm]
      cases hp : findProduct ps pid with
      | none => simpa using hu
      | some p =>
        by_cases hdup : invs.any (fun x => x.product_id == pid && x.date == d) = true
        · simpa [hdup] using hu
        · rw [uniquePerProductDate, if_neg hdup]
          have hnotmem : (pid, d) ∉ invs.map projPD := by
            intro hmem
            obtain ⟨r, hr, hproj⟩ := List.mem_map.mp hmem
            apply hdup
            rw [List.any_eq_true]
            refine ⟨r, hr, ?_⟩
            have h1 : r.product_id = pid := congrArg Prod.fst hproj
            have h2 : r.date = d := congrArg Prod.snd hproj
            simp [h1, h2]
          simp only [Bool.not_true, Bool.false_eq_true, if_false,
            List.map_append, List.map_cons, List.map_nil]
          rw [List.nodup_append]
          refine ⟨hu, List.nodup_singleton _, ?_⟩
          intro a ha hb
          simp only [calculate_totals_projPD] at hb
          simp only [List.mem_singleton] at hb
          subst hb
          exact hnotmem (by simpa [projPD] using ha)
    · simpa [hadm] using hu
  · rw [uniquePerProductDate, update_inventory_record_projPD invs u iid ub now]
    exact hu

/-! ## Concrete sample data used by the witnesses. -/

/-- Sample product A: active, trade price 140. -/
def prodA : Product :=
  { id := 1, item_name := "Toothbrush A", trade_price := 140,
    return_price_market := 120, return_price_office := 110,
    is_active := true }

/-- Sample product B: active, trade price 100. -/
def prodB : Product :=
  { id := 2, item_name := "Toothpaste B", trade_price := 100,
    return_price_market := 90, return_price_office := 80,
    is_active := true }

/-- Sample inventory record for product A on day 20: opening 20,
lifting 5, returns 2+1, so present stock 18. -/
def invA : InventoryRecord :=
  { id := 1, product_id := 1, date := 20, opening_pieces := 20,
    lifting_pieces := 5, lifting_price := 700,
    return_market_pieces := 2, return_market_price := 240,
    return_office_pieces := 1, return_office_price := 110,
    ims_pieces := 15, ims_value := 2100, total_stock := 18,
    present_stock := 18, closing_value := 2520, updated_at := 0 }

/-- Sample inventory record for product B on day 20 with present
stock 5. -/
def invB : InventoryRecord :=
  { id := 2, product_id := 2, date := 20, opening_pieces := 5,
    lifting_pieces := 0, lifting_price := 0,
    return_market_pieces := 0, return_market_price := 0,
    return_office_pieces := 0, return_office_price := 0,
    ims_pieces := 0, ims_value := 0, total_stock := 5,
    present_stock := 5, closing_value := 700, updated_at := 0 }

/-- Sample database state: two active products in stock, no orders. -/
def sampleSt : St :=
  { products := [prodA, prodB], inventories := [invA, invB],
    orders := [], order_items := [] }

/-- An order request for 99 units of product A (stock is only 18). -/
def reqOver : OrderRequest :=
  { customer_name := "John Doe", customer_phone := "",
    customer_address := "", delivery_area := "Dhanmondi", notes := "",
    items := [{ product_id := 1, quantity := 99 }] }

/-- An order request for 2 units of product A and 1 of product B. -/
def reqAB : OrderRequest :=
  { customer_name := "John Doe", customer_phone := "",
    customer_address := "", delivery_area := "Dhanmondi", notes := "",
    items := [{ product_id := 1, quantity := 2 },
              { product_id := 2, quantity := 1 }] }

/-- The order `create_order` builds for `reqAB` on `sampleSt`:
total value 2 × 140 + 1 × 100 = 380. -/
def orderAB : OrderRow :=
  { id := 1, sales_person_id := 7, customer_name := "John Doe",
    customer_phone := "", customer_address := "",
    delivery_area := "Dhanmondi", status := "pending",
    total_value := 380, order_date := 0, delivery_date := none,
    notes := "", updated_at := 0 }

/-- An order request with a negative quantity. -/
def reqNeg : OrderRequest :=
  { customer_name := "John Doe", customer_phone := "",
    customer_address := "", delivery_area := "Dhanmondi", notes := "",
    items := [{ product_id := 1, quantity := -3 }] }

/-- Witness for C3: requesting 99 units of product A (stock 18) makes
`create_order` fail and leaves the state unchanged. -/
theorem create_order_rejects_bad_line_witness :
    (∃ e, (create_order sampleSt 7 reqOver 0).1 = .error e) ∧
    (create_order sampleSt 7 reqOver 0).2 = sampleSt :=
  create_order_rejects_bad_line sampleSt 7 reqOver 0
    ⟨{ product_id := 1, quantity := 99 }, by decide,
     Or.inr (Or.inr (by decide))⟩

/-- Witness for C4: on `sampleSt`, ordering 2 × product A and
1 × product B succeeds with total value 380, unit prices snapshotted
from the trade prices. -/
theorem create_order_success_pricing_witness :
    ((create_order sampleSt 7 reqAB 0).1 = .ok orderAB) ∧
    (∃ ois, (create_order sampleSt 7 reqAB 0).2.order_items =
        sampleSt.order_items ++ ois ∧
      (∀ oi ∈ ois, ∃ p, findProduct sampleSt.products oi.product_id = some p ∧
        oi.unit_price = p.trade_price ∧
        oi.total_price = (oi.quantity : ℚ) * oi.unit_price) ∧
      orderAB.total_value = (ois.map (fun i => i.total_price)).sum) := by
  have h : (create_order sampleSt 7 reqAB 0).1 = .ok orderAB := by
    rw [create_order, if_neg (by decide : ¬(reqAB.items = []))]
    have hpi : processItems sampleSt.products sampleSt.inventories
        (sampleSt.orders.length + 1) reqAB.items =
        .ok ([⟨1, 1, 2, 140, (2 : ℚ) * 140⟩, ⟨1, 2, 1, 100, (1 : ℚ) * 100⟩],
             (2 : ℚ) * 140 + ((1 : ℚ) * 100 + 0)) := by
      norm_num [processItems, sampleSt, reqAB, findProduct, prodA, prodB,
        get_current_stock, invA, invB, maxDateRecord, calculate_total_price]
    simp only [hpi]
    norm_num [orderAB, reqAB, sampleSt]
  exact ⟨h, create_order_success_pricing sampleSt 7 reqAB 0 orderAB h⟩

/-- Witness for C10: a line with quantity −3 (stock 18) is accepted
and persisted with quantity −3, contributing −3 × 140 = −420. -/
theorem create_order_no_positivity_check_witness :
    reqNeg.items ≠ [] ∧
    (∃ o ois, (create_order sampleSt 7 reqNeg 0).1 = .ok o ∧
      (create_order sampleSt 7 reqNeg 0).2.order_items =
        sampleSt.order_items ++ ois ∧
      ois.map (fun i => i.quantity) = reqNeg.items.map (fun l => l.quantity) ∧
      (∀ oi ∈ ois, oi.total_price = (oi.quantity : ℚ) * oi.unit_price) ∧
      o.total_value = (ois.map (fun i => i.total_price)).sum) :=
  ⟨by decide, create_order_no_positivity_check sampleSt 7 reqNeg 0 (by decide)
    (fun l hl => by
      have hleq : l = { product_id := 1, quantity := -3 } := by
        simpa [reqNeg] using hl
      subst hleq
      exact ⟨prodA, by decide, by decide, by decide⟩)⟩

/-- Sample admin user. -/
def adminUser : User :=
  { id := 1, username := "admin", email := "admin@pentagon.test",
    full_name := "Admin", phone := "", role := "admin",
    password_hash := "h1" }

/-- Sample sales user with id 7. -/
def salesUser1 : User :=
  { id := 7, username := "sales1", email := "sales1@pentagon.test",
    full_name := "Sales One", phone := "", role := "sales",
    password_hash := "h7" }

/-- A second sales user with id 8. -/
def salesUser2 : User :=
  { id := 8, username := "sales2", email := "sales2@pentagon.test",
    full_name := "Sales Two", phone := "", role := "sales",
    password_hash := "h8" }

/-- A pending order owned by sales user 7, not yet delivered. -/
def orderPending : OrderRow :=
  { id := 1, sales_person_id := 7, customer_name := "Ahmed Rahman",
    customer_phone := "", customer_address := "",
    delivery_area := "Dhanmondi", status := "pending", total_value := 0,
    order_date := 0, delivery_date := none, notes := "",
    updated_at := 0 }

/-- An order already delivered at time 3. -/
def orderDelivered : OrderRow :=
  { id := 2, sales_person_id := 7, customer_name := "Fatima Khatun",
    customer_phone := "", customer_address := "",
    delivery_area := "lalbag", status := "delivered", total_value := 0,
    order_date := 0, delivery_date := some 3, notes := "",
    updated_at := 0 }

/-- Witness for C5: delivering a pending order at time 5 stamps
`delivery_date = some 5`, while re-delivering an already delivered
order at time 9 keeps its original `delivery_date`. -/
theorem apply_status_change_delivery_date_witness :
    (apply_status_change orderPending "delivered" 5).delivery_date =
      some 5 ∧
    (apply_status_change orderDelivered "delivered" 9).delivery_date =
      orderDelivered.delivery_date :=
  ⟨(apply_status_change_delivery_date orderPending "delivered" 5).1
      ⟨rfl, by decide⟩,
   (apply_status_change_delivery_date orderDelivered "delivered" 9).2
      (Or.inr rfl)⟩

/-- Witness for C8: sales user 8 asking for sales user 7's order gets
403 and no data; sales user 7 asking for their own order gets 200 with
the order. -/
theorem get_order_sales_ownership_witness :
    get_order [orderPending] salesUser2 1 = (403, none) ∧
    get_order [orderPending] salesUser1 1 = (200, some orderPending) :=
  ⟨(get_order_sales_ownership [orderPending] salesUser2 1 orderPending
      rfl (by decide)).1 (by decide),
   (get_order_sales_ownership [orderPending] salesUser1 1 orderPending
      rfl (by decide)).2 rfl⟩

/-- A `POST /inventory` body with all movement fields zero. -/
def cbZero : InventoryCreateBody :=
  { opening_pieces := 0, lifting_pieces := 0, lifting_price := 0,
    return_market_pieces := 0, return_market_price := 0,
    return_office_pieces := 0, return_office_price := 0,
    ims_pieces := 0, ims_value := 0 }

/-- A `PUT /inventory/:id` body updating only `lifting_pieces`. -/
def ubLift : InventoryUpdateBody :=
  { opening_pieces := none, lifting_pieces := some 7,
    lifting_price := none, return_market_pieces := none,
    return_market_price := none, return_office_pieces := none,
    return_office_price := none, ims_pieces := none, ims_value := none }

/-- Witness for C7: with records for (product 1, day 20) and
(product 2, day 20), an admin `POST` for (product 1, day 20) yields 400
with the store unchanged, and an admin `PUT` on record 1 preserves
every record's (product_id, date) and the uniqueness invariant. -/
theorem inventory_unique_per_product_date_witness :
    create_inventory_record [prodA, prodB] [invA, invB] adminUser 1 20
      cbZero 3 9 = (400, [invA, invB]) ∧
    uniquePerProductDate
      (create_inventory_record [prodA, prodB] [invA, invB] adminUser 1 20
        cbZero 3 9).2 ∧
    (update_inventory_record [invA, invB] adminUser 1 ubLift 9).2.map
        projPD = [invA, invB].map projPD ∧
    uniquePerProductDate
      (update_inventory_record [invA, invB] adminUser 1 ubLift 9).2 := by
  obtain ⟨h1, h2, h3, h4⟩ := inventory_unique_per_product_date
    [prodA, prodB] [invA, invB] adminUser 1 20 cbZero 3 9 1 ubLift
    (by unfold uniquePerProductDate; decide)
  exact ⟨h1 ⟨invA, by decide, rfl, rfl⟩ (by decide) (by decide),
    h2, h3, h4⟩
